import Mathlib

/-!
Verification of the elves agent-supervision core.

This file gives a shallow embedding, in Lean, of the parts of the Rust
sources that the verified claims are about:

* `src-tauri/src/agents/claude_adapter.rs` — `parse_claude_output`
* `src-tauri/src/agents/codex_adapter.rs` — `parse_codex_output`,
  `normalize_codex_event`
* `src-tauri/src/agents/process.rs` — `ProcessManager`
* `src-tauri/src/db/sessions.rs` — the session rows the pumps mutate
* `src-tauri/src/commands/tasks.rs` — `stop_task`, `stop_team_task`,
  `detect_question_in_result`, `stream_claude_output`,
  `stream_codex_output`

Pure functions are translated directly; the stateful command handlers and
stream pumps are translated as explicit state-passing functions over a
sessions table, a process registry and a list of emitted frontend signals.
A Rust operation that can panic (byte-slicing a string off a character
boundary) is modelled as an `Option`-valued function returning `none` at
the panicking inputs.
-/

namespace Elves

/-- JSON values, modelling `serde_json::Value`.  Numbers are modelled as
integers only and string escapes are restricted to the single-character
ones: this restricts which lines decode successfully, but every statement
proved below is conditional on (or evaluates) the decoder's answer, never
on the full grammar of JSON.  Object fields keep their textual order. -/
inductive Json where
  | null
  | bool (b : Bool)
  | num (n : Int)
  | str (s : String)
  | arr (elems : List Json)
  | obj (fields : List (String × Json))
deriving Repr

/-- The `\x7b` character. -/
def lbrace : Char := Char.ofNat 123

/-- The `\x7d` character. -/
def rbrace : Char := Char.ofNat 125

/-- JSON inter-token whitespace (RFC 8259, as accepted by serde_json). -/
def isJsonWs (c : Char) : Bool :=
  c = ' ' || c = '\t' || c = '\n' || c = '\r'

/-- Drop leading JSON whitespace. -/
def skipWs : List Char → List Char
  | [] => []
  | c :: cs => if isJsonWs c then skipWs cs else c :: cs

/-- Parse the body of a JSON string, after the opening quote.  Returns the
decoded characters and the input remaining after the closing quote. -/
def parseStringBody : List Char → Option (List Char × List Char)
  | [] => none
  | c :: cs =>
    if c = '"' then some ([], cs)
    else if c = '\\' then
      match cs with
      | [] => none
      | e :: cs' =>
        let esc : Option Char :=
          if e = '"' then some '"'
          else if e = '\\' then some '\\'
          else if e = '/' then some '/'
          else if e = 'n' then some '\n'
          else if e = 't' then some '\t'
          else if e = 'r' then some '\r'
          else if e = 'b' then some (Char.ofNat 8)
          else if e = 'f' then some (Char.ofNat 12)
          else none
        match esc with
        | none => none
        | some ch => (parseStringBody cs').map (fun p => (ch :: p.1, p.2))
    else (parseStringBody cs).map (fun p => (c :: p.1, p.2))

/-- Split a maximal run of ASCII digits off the front of the input. -/
def takeDigits : List Char → (List Char × List Char)
  | [] => ([], [])
  | c :: cs =>
    if c.isDigit then
      let p := takeDigits cs
      (c :: p.1, p.2)
    else ([], c :: cs)

/-- Decimal value of a digit run. -/
def digitsToNat (ds : List Char) : Nat :=
  ds.foldl (fun acc c => acc * 10 + (c.toNat - 48)) 0

/-- Does the second list start with the first? -/
def listStartsWith : List Char → List Char → Bool
  | [], _ => true
  | _ :: _, [] => false
  | p :: ps, c :: cs => p = c && listStartsWith ps cs

mutual

/-- Parse one JSON value (recursive-descent model of serde_json's value
parser; `fuel` bounds the recursion and is chosen large enough by the
top-level entry point).  Returns the value and the unconsumed input. -/
def parseValue (fuel : Nat) (input : List Char) : Option (Json × List Char) :=
  match fuel with
  | 0 => none
  | f + 1 =>
    match skipWs input with
    | [] => none
    | c :: cs =>
      if c = lbrace then
        (parseMembers f cs).map (fun p => (Json.obj p.1, p.2))
      else if c = '[' then
        (parseElements f cs).map (fun p => (Json.arr p.1, p.2))
      else if c = '"' then
        (parseStringBody cs).map (fun p => (Json.str (String.mk p.1), p.2))
      else if c = '-' then
        match takeDigits cs with
        | ([], _) => none
        | (ds, rest) => some (Json.num (-(digitsToNat ds : Int)), rest)
      else if c.isDigit then
        match takeDigits (c :: cs) with
        | (ds, rest) => some (Json.num (digitsToNat ds), rest)
      else if listStartsWith ['t', 'r', 'u', 'e'] (c :: cs) then
        some (Json.bool true, (c :: cs).drop 4)
      else if listStartsWith ['f', 'a', 'l', 's', 'e'] (c :: cs) then
        some (Json.bool false, (c :: cs).drop 5)
      else if listStartsWith ['n', 'u', 'l', 'l'] (c :: cs) then
        some (Json.null, (c :: cs).drop 4)
      else none

/-- Parse object members, entered just after the opening brace or after a
separating comma. -/
def parseMembers (fuel : Nat) (input : List Char) :
    Option (List (String × Json) × List Char) :=
  match fuel with
  | 0 => none
  | f + 1 =>
    match skipWs input with
    | [] => none
    | c :: cs =>
      if c = rbrace then some ([], cs)
      else if c = '"' then
        match parseStringBody cs with
        | none => none
        | some (key, rest1) =>
          match skipWs rest1 with
          | ':' :: rest2 =>
            match parseValue f rest2 with
            | none => none
            | some (v, rest3) =>
              match skipWs rest3 with
              | [] => none
              | d :: rest4 =>
                if d = ',' then
                  (parseMembers f rest4).map
                    (fun p => ((String.mk key, v) :: p.1, p.2))
                else if d = rbrace then some ([(String.mk key, v)], rest4)
                else none
          | _ => none
      else none

/-- Parse array elements, entered just after the opening bracket or after a
separating comma. -/
def parseElements (fuel : Nat) (input : List Char) :
    Option (List Json × List Char) :=
  match fuel with
  | 0 => none
  | f + 1 =>
    match skipWs input with
    | [] => none
    | c :: cs =>
      if c = ']' then some ([], cs)
      else
        match parseValue f (c :: cs) with
        | none => none
        | some (v, rest1) =>
          match skipWs rest1 with
          | [] => none
          | d :: rest2 =>
            if d = ',' then
              (parseElements f rest2).map (fun p => (v :: p.1, p.2))
            else if d = ']' then some ([v], rest2)
            else none

end

/-- Model of `serde_json::from_str::<serde_json::Value>`: parse one value
and require only trailing whitespace after it. -/
def serde_json_from_str (s : String) : Option Json :=
  match parseValue (s.data.length + 1) s.data with
  | some (v, rest) => if skipWs rest = [] then some v else none
  | none => none

/-- `Value::get(key)`: field lookup on objects, `none` elsewhere. -/
def Json.get (v : Json) (key : String) : Option Json :=
  match v with
  | Json.obj fields => fields.lookup key
  | _ => none

/-- `Value::as_str`. -/
def Json.asStr : Json → Option String
  | Json.str s => some s
  | _ => none

/-- `Value::as_i64` (numbers are modelled as integers). -/
def Json.asI64 : Json → Option Int
  | Json.num n => some n
  | _ => none

/-- `Value::as_f64`; with integer-modelled numbers it coincides with
`as_i64`. -/
def Json.asF64 : Json → Option Int := Json.asI64

/-- The Unicode `White_Space` code points, the set recognised by Rust's
`char::is_whitespace` and hence by `str::trim`. -/
def isRustWhitespace (c : Char) : Bool :=
  c = ' ' || c = '\t' || c = '\n' || c = '\r' ||
  c = Char.ofNat 11 || c = Char.ofNat 12 || c = Char.ofNat 133 ||
  c = Char.ofNat 160 || c = Char.ofNat 5760 ||
  (8192 ≤ c.toNat && c.toNat ≤ 8202) ||
  c = Char.ofNat 8232 || c = Char.ofNat 8233 || c = Char.ofNat 8239 ||
  c = Char.ofNat 8287 || c = Char.ofNat 12288

/-- Model of Rust `str::trim`. -/
def rustTrim (s : String) : String :=
  String.mk (((s.data.dropWhile isRustWhitespace).reverse.dropWhile
    isRustWhitespace).reverse)

/-- `claude_adapter::ClaudeEvent`. -/
structure ClaudeEvent where
  event_type : String
  payload : Json
  timestamp : Int
deriving Repr

/-- `codex_adapter::CodexEvent`. -/
structure CodexEvent where
  event_type : String
  payload : Json
  timestamp : Int
deriving Repr

/-- `codex_adapter::NormalizedEvent`. -/
structure NormalizedEvent where
  event_type : String
  payload : Json
  timestamp : Int
  runtime : String
deriving Repr

/-- `claude_adapter::parse_claude_output`.  The source reads the clock via
`chrono::Utc::now().timestamp()`; the model receives that reading as the
argument `now`. -/
def parse_claude_output (now : Int) (line : String) : Option ClaudeEvent :=
  let trimmed := rustTrim line
  if trimmed = "" then none
  else
    match serde_json_from_str trimmed with
    | some value =>
      let t := ((value.get "type").bind Json.asStr).getD "output"
      some { event_type := t, payload := value, timestamp := now }
    | none =>
      some { event_type := "output",
             payload := Json.obj [("text", Json.str trimmed)],
             timestamp := now }

/-- `codex_adapter::parse_codex_output`; same structure as the Claude
parser with the `"message"` fallback type. -/
def parse_codex_output (now : Int) (line : String) : Option CodexEvent :=
  let trimmed := rustTrim line
  if trimmed = "" then none
  else
    match serde_json_from_str trimmed with
    | some value =>
      let t := ((value.get "type").bind Json.asStr).getD "message"
      some { event_type := t, payload := value, timestamp := now }
    | none =>
      some { event_type := "message",
             payload := Json.obj [("text", Json.str trimmed)],
             timestamp := now }

/-- The `match event.event_type.as_str()` table inside
`codex_adapter::normalize_codex_event`. -/
def codex_unified_type (t : String) : String :=
  if t = "plan" ∨ t = "thinking" then "thinking"
  else if t = "tool_call" ∨ t = "exec" ∨ t = "function_call" then "tool_call"
  else if t = "tool_result" ∨ t = "function_result" then "tool_result"
  else if t = "patch" ∨ t = "apply" ∨ t = "file_edit" then "file_change"
  else if t = "error" then "error"
  else "output"

/-- `codex_adapter::normalize_codex_event`. -/
def normalize_codex_event (event : CodexEvent) : NormalizedEvent :=
  { event_type := codex_unified_type event.event_type
    payload := event.payload
    timestamp := event.timestamp
    runtime := "codex" }

/-- Does `pat` occur as a contiguous run inside the second list?  Model of
Rust `str::contains` with a string pattern. -/
def listContainsSub (pat : List Char) : List Char → Bool
  | [] => listStartsWith pat []
  | c :: rest => listStartsWith pat (c :: rest) || listContainsSub pat rest

/-- `str::contains` on strings. -/
def strContainsSub (s pat : String) : Bool :=
  listContainsSub pat.data s.data

/-- Model of Rust `str::to_lowercase` (per-character lowering; it agrees
with Rust on ASCII, which covers every comparison the question heuristic
performs). -/
def rustToLowercase (s : String) : String :=
  String.mk (s.data.map Char.toLower)

/-- Model of Rust `str::ends_with` with a `char` pattern. -/
def endsWithChar (s : String) (c : Char) : Bool :=
  match s.data.getLast? with
  | some d => d = c
  | none => false

/-- The fixed conversational prompt phrases listed in
`tasks::detect_question_in_result`. -/
def questionPhrases : List String :=
  ["would you like", "shall i", "do you want", "please confirm",
   "let me know", "what should i", "which option", "should i",
   "can i", "could you", "any preference"]

/-- `commands/tasks.rs::detect_question_in_result`. -/
def detect_question_in_result (text : String) : Bool :=
  let trimmed := rustTrim text
  if trimmed = "" then false
  else
    let ends_with_question := endsWithChar trimmed '?'
    let lower := rustToLowercase trimmed
    let has_prompt_phrase := questionPhrases.any (fun p => strContainsSub lower p)
    ends_with_question || has_prompt_phrase

/-- UTF-8 byte length, Rust `str::len`. -/
def rustStrLen (s : String) : Nat :=
  s.data.foldl (fun n c => n + c.utf8Size) 0

/-- The Rust byte slice `&text[..n]` on the UTF-8 representation: the
prefix of characters whose encoded bytes are exactly the first `n`, or
`none` when `n` is not a character boundary — the Rust slice panics
there. -/
def byteTake : List Char → Nat → Option (List Char)
  | _, 0 => some []
  | [], _ + 1 => none
  | c :: cs, n + 1 =>
    if c.utf8Size ≤ n + 1 then
      (byteTake cs (n + 1 - c.utf8Size)).map (fun p => c :: p)
    else none

/-- The summary / last-result truncation appearing twice in
`stream_claude_output`:
`if text.len() > 500 ... format ... &text[..497] ... else text`.
`none` models the slice's panic at a non-boundary index. -/
def truncate_result_text (text : String) : Option String :=
  if rustStrLen text > 500 then
    (byteTake text.data 497).map (fun p => String.mk p ++ "...")
  else some text

/-! ### The process registry (`agents/process.rs`) -/

/-- Remove every binding of `k` from a string-keyed association list. -/
def eraseKey {α : Type} (k : String) : List (String × α) → List (String × α)
  | [] => []
  | p :: rest =>
    if p.1 = k then eraseKey k rest else p :: eraseKey k rest

/-- `HashMap::insert`, replacing any previous binding of `k`. -/
def insertKey {α : Type} (k : String) (v : α) (m : List (String × α)) :
    List (String × α) :=
  (k, v) :: eraseKey k m

/-- `HashMap::contains_key`. -/
def containsKey {α : Type} (k : String) : List (String × α) → Bool
  | [] => false
  | p :: rest => p.1 == k || containsKey k rest

/-- Membership in a list of session ids. -/
def elemStr (sid : String) : List String → Bool
  | [] => false
  | a :: rest => a == sid || elemStr sid rest

/-- Remove every occurrence of a session id. -/
def removeAll (sid : String) : List String → List String
  | [] => []
  | a :: rest =>
    if a = sid then removeAll sid rest else a :: removeAll sid rest

/-- `process::ProcessManager`.  Child handles are abstracted to numeric
ids; the two hash maps become association lists.  The `interactive`
component is *modelled from the spec*: the interactive-flag store behind
`mark_interactive` / `is_interactive` / `clear_interactive`, which
`commands/tasks.rs` calls but whose implementation is absent from the
sources — per the spec, a per-session flag that is set by the
interactive transition and read once, then cleared, by the stdout pump's
end-of-stream handler. -/
structure ProcessManager where
  processes : List (String × Nat)
  teams : List (String × List Nat)
  interactive : List String
deriving Repr

/-- `ProcessManager::new`. -/
def ProcessManager.new : ProcessManager :=
  { processes := [], teams := [], interactive := [] }

/-- `ProcessManager::register`: insert, replacing (without killing) any
previous entry; the team map is not consulted. -/
def ProcessManager.register (pm : ProcessManager) (sid : String)
    (child : Nat) : ProcessManager :=
  { pm with processes := insertKey sid child pm.processes }

/-- `ProcessManager::register_team`: insert, replacing (without killing)
any previous entry; the single-process map is not consulted. -/
def ProcessManager.register_team (pm : ProcessManager) (sid : String)
    (children : List Nat) : ProcessManager :=
  { pm with teams := insertKey sid children pm.teams }

/-- `ProcessManager::kill`: remove the entry and reap the child; returns
whether an entry existed. -/
def ProcessManager.kill (pm : ProcessManager) (sid : String) :
    ProcessManager × Bool :=
  ({ pm with processes := eraseKey sid pm.processes },
   containsKey sid pm.processes)

/-- `ProcessManager::kill_team`: remove the team entry; returns how many
children it held. -/
def ProcessManager.kill_team (pm : ProcessManager) (sid : String) :
    ProcessManager × Nat :=
  ({ pm with teams := eraseKey sid pm.teams },
   ((pm.teams.lookup sid).map List.length).getD 0)

/-- `ProcessManager::kill_all`: drain both maps; returns the total count. -/
def ProcessManager.kill_all (pm : ProcessManager) : ProcessManager × Nat :=
  ({ pm with processes := [], teams := [] },
   pm.processes.length + (pm.teams.map (fun p => p.2.length)).sum)

/-- `ProcessManager::is_running`. -/
def ProcessManager.is_running (pm : ProcessManager) (sid : String) : Bool :=
  containsKey sid pm.processes || containsKey sid pm.teams

/-- `ProcessManager::active_count`. -/
def ProcessManager.active_count (pm : ProcessManager) : Nat :=
  pm.processes.length + (pm.teams.map (fun p => p.2.length)).sum

/-- Modelled from the spec: `mark_interactive` — set the per-session
interactive flag (implementation absent from the sources; only its
callers in `commands/tasks.rs` appear). -/
def ProcessManager.mark_interactive (pm : ProcessManager) (sid : String) :
    ProcessManager :=
  if elemStr sid pm.interactive then pm
  else { pm with interactive := sid :: pm.interactive }

/-- Modelled from the spec: `is_interactive` — read the flag. -/
def ProcessManager.is_interactive (pm : ProcessManager) (sid : String) :
    Bool :=
  elemStr sid pm.interactive

/-- Modelled from the spec: `clear_interactive` — clear the flag. -/
def ProcessManager.clear_interactive (pm : ProcessManager) (sid : String) :
    ProcessManager :=
  { pm with interactive := removeAll sid pm.interactive }

/-- One registry operation, for stating the cross-map invariant over
operation sequences. -/
inductive RegOp where
  | register (sid : String) (child : Nat)
  | registerTeam (sid : String) (children : List Nat)
  | kill (sid : String)
  | killTeam (sid : String)
  | killAll

/-- Apply one registry operation. -/
def applyRegOp (pm : ProcessManager) : RegOp → ProcessManager
  | RegOp.register sid c => pm.register sid c
  | RegOp.registerTeam sid cs => pm.register_team sid cs
  | RegOp.kill sid => (pm.kill sid).1
  | RegOp.killTeam sid => (pm.kill_team sid).1
  | RegOp.killAll => pm.kill_all.1

/-- Run a sequence of registry operations from a starting state. -/
def runRegOps (pm : ProcessManager) (ops : List RegOp) : ProcessManager :=
  ops.foldl applyRegOp pm

/-! ### The sessions table (`db/sessions.rs`) -/

/-- The columns of a `sessions` row that the verified code reads or
writes (`SessionRow`, restricted to those columns; `cost_estimate` is an
integer, matching the integer model of JSON numbers). -/
structure Session where
  status : String
  summary : Option String
  claude_session_id : Option String
  tokens_used : Int
  cost_estimate : Int
deriving Repr

/-- The sessions table: rows keyed by session id. -/
abbrev SessionsDb := List (String × Session)

/-- `db/sessions.rs::get_session`. -/
def get_session (db : SessionsDb) (sid : String) : Option Session :=
  db.lookup sid

/-- `UPDATE sessions SET ... WHERE id = sid`, applied to every matching
row. -/
def dbUpdate (db : SessionsDb) (sid : String) (f : Session → Session) :
    SessionsDb :=
  db.map (fun p => if p.1 = sid then (p.1, f p.2) else p)

/-- `db/sessions.rs::update_session_status`: sets `status` and
`summary = COALESCE(new, old)`; the `ended_at` column is not modelled. -/
def update_session_status (db : SessionsDb) (sid status : String)
    (summary : Option String) : SessionsDb :=
  dbUpdate db sid (fun s =>
    { s with status := status,
             summary := summary.orElse (fun _ => s.summary) })

/-- `db/sessions.rs::update_session_usage`. -/
def update_session_usage (db : SessionsDb) (sid : String) (tokens : Int)
    (cost : Int) : SessionsDb :=
  dbUpdate db sid (fun s =>
    { s with tokens_used := tokens, cost_estimate := cost })

/-- `db/sessions.rs::update_claude_session_id`. -/
def update_claude_session_id (db : SessionsDb) (sid csid : String) :
    SessionsDb :=
  dbUpdate db sid (fun s => { s with claude_session_id := some csid })

/-- One `events` row as inserted by `db/events.rs::insert_event` from the
pumps (`elf_id` and `note` are always `None` there; the payload is stored
as its JSON value — the source serialises it with
`serde_json::to_string`, which cannot fail on these values). -/
structure EventRow where
  session_id : String
  event_type : String
  payload : Json
deriving Repr

/-- A Tauri event emitted to the frontend (`app.emit(...)`), restricted to
the signals the verified handlers emit.  The Claude pump's completion
signal carries `needsInput` and `lastResult`; the Codex pump's completion
carries neither, hence the optional fields. -/
inductive Signal where
  | elfEvent (session_id : String) (event_type : String) (payload : Json)
      (timestamp : Int) (runtime : Option String)
  | sessionClaudeId (session_id : String) (claude_session_id : String)
  | sessionCancelled (session_id : String)
  | sessionCompleted (session_id : String) (needsInput : Option Bool)
      (lastResult : Option (Option String))
  | sessionInteractive (session_id : String)
deriving Repr

/-- Is this signal a `session:completed` emission? -/
def Signal.isCompletion : Signal → Bool
  | Signal.sessionCompleted _ _ _ => true
  | _ => false

/-- Is this signal a `session:cancelled` emission? -/
def Signal.isCancellation : Signal → Bool
  | Signal.sessionCancelled _ => true
  | _ => false

/-- No signal in the list is a completion emission. -/
def noCompletion : List Signal → Bool
  | [] => true
  | s :: rest => !s.isCompletion && noCompletion rest

/-! ### Stop commands (`commands/tasks.rs`) -/

/-- Result of a stop command: new registry state, new sessions table,
emitted signals, and the command's return value. -/
structure StopResult where
  pm : ProcessManager
  db : SessionsDb
  signals : List Signal
  ret : Bool

/-- `matches!(status, "completed" | "cancelled" | "error")`. -/
def is_terminal_status (s : String) : Bool :=
  s = "completed" || s = "cancelled" || s = "error"

/-- `commands/tasks.rs::stop_task` (the database lock and writes are
modelled as succeeding). -/
def stop_task (pm₀ : ProcessManager) (db₀ : SessionsDb) (sid : String) :
    StopResult :=
  let k := pm₀.kill sid
  let killed := k.2
  let is_inter := k.1.is_interactive sid
  let pm := if killed || is_inter then k.1.clear_interactive sid else k.1
  let already_terminal :=
    ((get_session db₀ sid).map (fun s => is_terminal_status s.status)).getD
      false
  let db :=
    if already_terminal then db₀
    else update_session_status db₀ sid "cancelled"
      (some "Task stopped by user")
  { pm := pm, db := db, signals := [Signal.sessionCancelled sid],
    ret := killed || is_inter }

/-- `commands/tasks.rs::stop_team_task`: tries both kill paths, then the
same always-emit logic as `stop_task`. -/
def stop_team_task (pm₀ : ProcessManager) (db₀ : SessionsDb)
    (sid : String) : StopResult :=
  let k := pm₀.kill sid
  let single_killed := k.2
  let kt := k.1.kill_team sid
  let team_killed := kt.2
  let is_inter := kt.1.is_interactive sid
  let any_killed := single_killed || decide (team_killed > 0) || is_inter
  let pm := if any_killed then kt.1.clear_interactive sid else kt.1
  let already_terminal :=
    ((get_session db₀ sid).map (fun s => is_terminal_status s.status)).getD
      false
  let db :=
    if already_terminal then db₀
    else update_session_status db₀ sid "cancelled"
      (some "Team task stopped by user")
  { pm := pm, db := db, signals := [Signal.sessionCancelled sid],
    ret := any_killed }

/-- `commands/tasks.rs::transition_to_interactive`: mark the flag, kill
the tracked process, emit the interactive signal. -/
def transition_to_interactive (pm₀ : ProcessManager) (sid : String) :
    ProcessManager × List Signal × Bool :=
  let pm := pm₀.mark_interactive sid
  let k := pm.kill sid
  (k.1, [Signal.sessionInteractive sid], k.2)

/-! ### The stream pumps (`commands/tasks.rs`) -/

/-- `Value::as_array`. -/
def Json.asArr : Json → Option (List Json)
  | Json.arr xs => some xs
  | _ => none

/-- Mutable state of one run of `stream_claude_output`'s line loop. -/
structure ClaudePumpAcc where
  db : SessionsDb
  events : List EventRow
  signals : List Signal
  last_result_payload : Option Json
  last_assistant_text : Option String

/-- The assistant-text tracking step of the Claude pump: scan the content
blocks of an `assistant` event and remember the last non-blank text
block. -/
def track_assistant_text (payload : Json) (prev : Option String) :
    Option String :=
  match payload.get "message" with
  | none => prev
  | some message =>
    match (message.get "content").bind Json.asArr with
    | none => prev
    | some blocks =>
      blocks.foldl (fun acc block =>
        if (block.get "type").bind Json.asStr = some "text" then
          match (block.get "text").bind Json.asStr with
          | some text => if rustTrim text = "" then acc else some text
          | none => acc
        else acc) prev

/-- One iteration of the Claude pump's line loop: parse, capture the
upstream session id from `system` events, emit `elf:event`, persist the
row, and track the last `result` payload and assistant text. -/
def claude_pump_line (sid : String) (acc : ClaudePumpAcc)
    (stamped : Int × String) : ClaudePumpAcc :=
  match parse_claude_output stamped.1 stamped.2 with
  | none => acc
  | some event =>
    let acc :=
      if event.event_type = "system" then
        match (event.payload.get "session_id").bind Json.asStr with
        | some csid =>
          { acc with
            db := update_claude_session_id acc.db sid csid,
            signals := acc.signals ++ [Signal.sessionClaudeId sid csid] }
        | none => acc
      else acc
    let acc := { acc with
      signals := acc.signals ++
        [Signal.elfEvent sid event.event_type event.payload event.timestamp
          none],
      events := acc.events ++ [⟨sid, event.event_type, event.payload⟩] }
    let acc :=
      if event.event_type = "result" then
        { acc with last_result_payload := some event.payload }
      else acc
    if event.event_type = "assistant" then
      { acc with last_assistant_text :=
          track_assistant_text event.payload acc.last_assistant_text }
    else acc

/-- The result-text extraction used twice by the Claude pump:
`r.get("result")` as a string, else `"text"`, else `"content"`. -/
def result_text (r : Json) : Option String :=
  ((r.get "result").bind Json.asStr).orElse (fun _ =>
    ((r.get "text").bind Json.asStr).orElse (fun _ =>
      (r.get "content").bind Json.asStr))

/-- Propagate a possible panic (`none` of the inner function) out of an
`Option.map`. -/
def mapPanic (f : String → Option String) : Option String →
    Option (Option String)
  | none => some none
  | some t => (f t).map some

/-- The token/cost extraction block of the Claude pump's end-of-stream
handler. -/
def claude_usage_update (sid : String) (db : SessionsDb) (result : Json) :
    SessionsDb :=
  let cost :=
    (((result.get "cost_usd").bind Json.asF64).orElse (fun _ =>
      (result.get "cost").bind Json.asF64)).getD 0
  let tokens :=
    (((result.get "total_tokens").bind Json.asI64).orElse (fun _ =>
      let input := ((result.get "input_tokens").bind Json.asI64).getD 0
      let output := ((result.get "output_tokens").bind Json.asI64).getD 0
      if input > 0 ∨ output > 0 then some (input + output) else none)).getD 0
  if tokens > 0 ∨ cost > 0 then update_session_usage db sid tokens cost
  else db

/-- The end-of-stream handler of `stream_claude_output`: skip when the
session transitioned to interactive (clearing the flag) or is already
`cancelled`; otherwise update usage, mark the session completed with a
truncated summary, and emit `session:completed` with the question flag
and truncated last result.  Returns the new flag store, sessions table
and the signals this handler emits; `none` models the panic of the
byte-boundary truncation. -/
def stream_claude_eof (sid : String) (pm : ProcessManager)
    (db : SessionsDb) (last_result_payload : Option Json)
    (last_assistant_text : Option String) :
    Option (ProcessManager × SessionsDb × List Signal) :=
  if pm.is_interactive sid then
    some (pm.clear_interactive sid, db, [])
  else if (get_session db sid).map Session.status = some "cancelled" then
    some (pm, db, [])
  else
    let db :=
      match last_result_payload with
      | some result => claude_usage_update sid db result
      | none => db
    match mapPanic truncate_result_text
        (last_result_payload.bind result_text) with
    | none => none
    | some summary =>
      let db := update_session_status db sid "completed"
        (summary.orElse (fun _ => some "Task completed"))
      let extracted := (last_result_payload.bind result_text).orElse
        (fun _ => last_assistant_text)
      let needs_input := (extracted.map detect_question_in_result).getD false
      match mapPanic truncate_result_text extracted with
      | none => none
      | some last_result_text =>
        some (pm, db,
          [Signal.sessionCompleted sid (some needs_input)
            (some last_result_text)])

/-- `commands/tasks.rs::stream_claude_output`, as a function of the list
of lines read from the child's stdout, each paired with the clock value
at which it arrived.  Returns the new registry (flag) state, sessions
table, persisted event rows and emitted signals; `none` models a panic
in the end-of-stream truncation. -/
def stream_claude_output (sid : String) (pm : ProcessManager)
    (db : SessionsDb) (input : List (Int × String)) :
    Option (ProcessManager × SessionsDb × List EventRow × List Signal) :=
  let acc := input.foldl (claude_pump_line sid)
    { db := db, events := [], signals := [], last_result_payload := none,
      last_assistant_text := none }
  match stream_claude_eof sid pm acc.db acc.last_result_payload
      acc.last_assistant_text with
  | none => none
  | some (pm', db', eofSignals) =>
    some (pm', db', acc.events, acc.signals ++ eofSignals)

/-- Mutable state of one run of `stream_codex_output`'s line loop. -/
structure CodexPumpAcc where
  db : SessionsDb
  events : List EventRow
  signals : List Signal

/-- One iteration of the Codex pump's line loop: parse, normalize, emit
`elf:event` (with the runtime tag), persist the row. -/
def codex_pump_line (sid : String) (acc : CodexPumpAcc)
    (stamped : Int × String) : CodexPumpAcc :=
  match parse_codex_output stamped.1 stamped.2 with
  | none => acc
  | some codexEvent =>
    let normalized := normalize_codex_event codexEvent
    { acc with
      signals := acc.signals ++
        [Signal.elfEvent sid normalized.event_type normalized.payload
          normalized.timestamp (some "codex")],
      events := acc.events ++
        [⟨sid, normalized.event_type, normalized.payload⟩] }

/-- `commands/tasks.rs::stream_codex_output`.  Its end-of-stream handling
performs no interactive-flag check and no cancelled-status check: it
unconditionally marks the session completed and emits a bare
`session:completed` signal. -/
def stream_codex_output (sid : String) (db : SessionsDb)
    (input : List (Int × String)) :
    SessionsDb × List EventRow × List Signal :=
  let acc := input.foldl (codex_pump_line sid)
    { db := db, events := [], signals := [] }
  let db' := update_session_status acc.db sid "completed"
    (some "Task completed")
  (db', acc.events, acc.signals ++ [Signal.sessionCompleted sid none none])

/-! ## Helper lemmas -/

theorem parse_claude_none_iff (now : Int) (line : String) :
    parse_claude_output now line = none ↔ rustTrim line = "" := by
  by_cases h : rustTrim line = ""
  · simp [parse_claude_output, h]
  · cases heq : serde_json_from_str (rustTrim line) <;>
      simp [parse_claude_output, h, heq]

theorem parse_codex_none_iff (now : Int) (line : String) :
    parse_codex_output now line = none ↔ rustTrim line = "" := by
  by_cases h : rustTrim line = ""
  · simp [parse_codex_output, h]
  · cases heq : serde_json_from_str (rustTrim line) <;>
      simp [parse_codex_output, h, heq]

theorem parse_claude_wraps (now : Int) (line : String)
    (h1 : rustTrim line ≠ "")
    (h2 : serde_json_from_str (rustTrim line) = none) :
    parse_claude_output now line =
      some { event_type := "output",
             payload := Json.obj [("text", Json.str (rustTrim line))],
             timestamp := now } := by
  simp [parse_claude_output, h1, h2]

theorem parse_codex_wraps (now : Int) (line : String)
    (h1 : rustTrim line ≠ "")
    (h2 : serde_json_from_str (rustTrim line) = none) :
    parse_codex_output now line =
      some { event_type := "message",
             payload := Json.obj [("text", Json.str (rustTrim line))],
             timestamp := now } := by
  simp [parse_codex_output, h1, h2]

theorem from_str_empty : serde_json_from_str "" = none := rfl

theorem parse_claude_fallback (now : Int) (line : String) (v : Json)
    (hv : serde_json_from_str (rustTrim line) = some v)
    (ht : (v.get "type").bind Json.asStr = none) :
    parse_claude_output now line =
      some { event_type := "output", payload := v, timestamp := now } := by
  have h1 : rustTrim line ≠ "" := by
    intro h
    rw [h, from_str_empty] at hv
    exact Option.noConfusion hv
  simp [parse_claude_output, h1, hv, ht]

theorem parse_codex_fallback (now : Int) (line : String) (v : Json)
    (hv : serde_json_from_str (rustTrim line) = some v)
    (ht : (v.get "type").bind Json.asStr = none) :
    parse_codex_output now line =
      some { event_type := "message", payload := v, timestamp := now } := by
  have h1 : rustTrim line ≠ "" := by
    intro h
    rw [h, from_str_empty] at hv
    exact Option.noConfusion hv
  simp [parse_codex_output, h1, hv, ht]

/-- The closed native-to-unified mapping table as the spec states it. -/
def specCodexTable : List (String × String) :=
  [("plan", "thinking"), ("thinking", "thinking"),
   ("tool_call", "tool_call"), ("exec", "tool_call"),
   ("function_call", "tool_call"),
   ("tool_result", "tool_result"), ("function_result", "tool_result"),
   ("patch", "file_change"), ("apply", "file_change"),
   ("file_edit", "file_change"), ("error", "error")]

theorem codex_unified_type_eq_table (t : String) :
    codex_unified_type t = (specCodexTable.lookup t).getD "output" := by
  by_cases h1 : t = "plan"
  · subst h1; rfl
  by_cases h2 : t = "thinking"
  · subst h2; rfl
  by_cases h3 : t = "tool_call"
  · subst h3; rfl
  by_cases h4 : t = "exec"
  · subst h4; rfl
  by_cases h5 : t = "function_call"
  · subst h5; rfl
  by_cases h6 : t = "tool_result"
  · subst h6; rfl
  by_cases h7 : t = "function_result"
  · subst h7; rfl
  by_cases h8 : t = "patch"
  · subst h8; rfl
  by_cases h9 : t = "apply"
  · subst h9; rfl
  by_cases h10 : t = "file_edit"
  · subst h10; rfl
  by_cases h11 : t = "error"
  · subst h11; rfl
  have g1 : (t == "plan") = false := beq_eq_false_iff_ne.mpr h1
  have g2 : (t == "thinking") = false := beq_eq_false_iff_ne.mpr h2
  have g3 : (t == "tool_call") = false := beq_eq_false_iff_ne.mpr h3
  have g4 : (t == "exec") = false := beq_eq_false_iff_ne.mpr h4
  have g5 : (t == "function_call") = false := beq_eq_false_iff_ne.mpr h5
  have g6 : (t == "tool_result") = false := beq_eq_false_iff_ne.mpr h6
  have g7 : (t == "function_result") = false := beq_eq_false_iff_ne.mpr h7
  have g8 : (t == "patch") = false := beq_eq_false_iff_ne.mpr h8
  have g9 : (t == "apply") = false := beq_eq_false_iff_ne.mpr h9
  have g10 : (t == "file_edit") = false := beq_eq_false_iff_ne.mpr h10
  have g11 : (t == "error") = false := beq_eq_false_iff_ne.mpr h11
  simp [codex_unified_type, specCodexTable, List.lookup,
    h1, h2, h3, h4, h5, h6, h7, h8, h9, h10, h11,
    g1, g2, g3, g4, g5, g6, g7, g8, g9, g10, g11]

theorem lookup_dbUpdate (db : SessionsDb) (sid : String)
    (f : Session → Session) :
    get_session (dbUpdate db sid f) sid = (get_session db sid).map f := by
  induction db with
  | nil => rfl
  | cons p rest ih =>
    obtain ⟨k, v⟩ := p
    show get_session
        ((if k = sid then (k, f v) else (k, v)) :: dbUpdate rest sid f)
        sid =
      (get_session ((k, v) :: rest) sid).map f
    by_cases h : k = sid
    · subst h
      rw [if_pos rfl]
      simp [get_session, List.lookup]
    · rw [if_neg h]
      have hk : (sid == k) = false := beq_eq_false_iff_ne.mpr (Ne.symm h)
      simp only [get_session, List.lookup, hk] at ih ⊢
      exact ih

theorem status_dbUpdate (db : SessionsDb) (sid tid : String)
    (f : Session → Session) (hf : ∀ s, (f s).status = s.status) :
    (get_session (dbUpdate db sid f) tid).map Session.status =
      (get_session db tid).map Session.status := by
  induction db with
  | nil => rfl
  | cons p rest ih =>
    obtain ⟨k, v⟩ := p
    show ((get_session
        ((if k = sid then (k, f v) else (k, v)) :: dbUpdate rest sid f)
        tid).map Session.status) =
      (get_session ((k, v) :: rest) tid).map Session.status
    by_cases h : k = sid
    · subst h
      rw [if_pos rfl]
      by_cases ht : tid = k
      · subst ht
        simp [get_session, List.lookup, hf]
      · have hb : (tid == k) = false := beq_eq_false_iff_ne.mpr ht
        simp only [get_session, List.lookup, hb] at ih ⊢
        exact ih
    · rw [if_neg h]
      by_cases ht : tid = k
      · subst ht
        simp [get_session, List.lookup]
      · have hb : (tid == k) = false := beq_eq_false_iff_ne.mpr ht
        simp only [get_session, List.lookup, hb] at ih ⊢
        exact ih

theorem status_update_claude_session_id (db : SessionsDb)
    (sid csid tid : String) :
    (get_session (update_claude_session_id db sid csid) tid).map
        Session.status =
      (get_session db tid).map Session.status :=
  status_dbUpdate db sid tid _ (fun _ => rfl)

theorem containsKey_eraseKey {α : Type} (k t : String)
    (m : List (String × α)) :
    containsKey t (eraseKey k m) =
      (if t = k then false else containsKey t m) := by
  induction m with
  | nil => simp [eraseKey, containsKey]
  | cons p rest ih =>
    obtain ⟨a, v⟩ := p
    show containsKey t
        (if a = k then eraseKey k rest else (a, v) :: eraseKey k rest) = _
    by_cases hak : a = k
    · rw [if_pos hak]
      rw [ih]
      by_cases htk : t = k
      · simp [htk]
      · have ha : (a == t) = false :=
          beq_eq_false_iff_ne.mpr
            (by rw [hak]; exact fun hh => htk hh.symm)
        simp [containsKey, htk, ha]
    · rw [if_neg hak]
      by_cases htk : t = k
      · have ha : (a == t) = false :=
          beq_eq_false_iff_ne.mpr (fun hh => hak (hh.trans htk))
        have hik : containsKey t (eraseKey k rest) = false := by
          rw [ih, if_pos htk]
        show (a == t || containsKey t (eraseKey k rest)) = _
        rw [ha, hik, if_pos htk]
        rfl
      · simp [containsKey, ih, htk]

theorem containsKey_insertKey {α : Type} (k t : String) (v : α)
    (m : List (String × α)) :
    containsKey t (insertKey k v m) = ((k == t) || containsKey t m) := by
  show (k == t || containsKey t (eraseKey k m)) = _
  rw [containsKey_eraseKey]
  by_cases h : t = k
  · subst h
    simp
  · simp [h]

theorem elemStr_removeAll (l : List String) (sid : String) :
    elemStr sid (removeAll sid l) = false := by
  induction l with
  | nil => rfl
  | cons a rest ih =>
    show elemStr sid
        (if a = sid then removeAll sid rest else a :: removeAll sid rest) =
      false
    by_cases h : a = sid
    · simpa [h] using ih
    · have ha : (a == sid) = false := beq_eq_false_iff_ne.mpr h
      rw [if_neg h]
      simp [elemStr, ha, ih]

theorem clear_interactive_cleared (pm : ProcessManager) (sid : String) :
    (pm.clear_interactive sid).is_interactive sid = false := by
  simp only [ProcessManager.clear_interactive, ProcessManager.is_interactive]
  exact elemStr_removeAll pm.interactive sid

/-- The cross-map disjointness invariant the spec asserts for the
registry. -/
def RegDisjoint (pm : ProcessManager) : Prop :=
  ∀ sid : String,
    containsKey sid pm.processes = false ∨ containsKey sid pm.teams = false

/-- The guard under which a registration keeps the two maps disjoint:
the id must not currently live in the *other* map. -/
def regOpGuard (pm : ProcessManager) : RegOp → Bool
  | RegOp.register sid _ => !(containsKey sid pm.teams)
  | RegOp.registerTeam sid _ => !(containsKey sid pm.processes)
  | _ => true

/-! ## Claims -/

/-- C2.  For every input line and for both adapters: `parse_*_output`
returns `none` iff the trimmed line is empty; a non-empty line that fails
JSON decoding yields a plain-text wrapper event (type `output` for the
Claude adapter, `message` for the Codex adapter), never an error; and a
decoded value without a string `"type"` discriminator gets the same
runtime-specific fallback type. -/
theorem claim_C2_parse_never_fails :
    (∀ (now : Int) (line : String),
        parse_claude_output now line = none ↔ rustTrim line = "") ∧
    (∀ (now : Int) (line : String),
        parse_codex_output now line = none ↔ rustTrim line = "") ∧
    (∀ (now : Int) (line : String), rustTrim line ≠ "" →
        serde_json_from_str (rustTrim line) = none →
        parse_claude_output now line =
          some { event_type := "output",
                 payload := Json.obj [("text", Json.str (rustTrim line))],
                 timestamp := now }) ∧
    (∀ (now : Int) (line : String), rustTrim line ≠ "" →
        serde_json_from_str (rustTrim line) = none →
        parse_codex_output now line =
          some { event_type := "message",
                 payload := Json.obj [("text", Json.str (rustTrim line))],
                 timestamp := now }) ∧
    (∀ (now : Int) (line : String) (v : Json),
        serde_json_from_str (rustTrim line) = some v →
        (v.get "type").bind Json.asStr = none →
        parse_claude_output now line =
          some { event_type := "output", payload := v, timestamp := now }) ∧
    (∀ (now : Int) (line : String) (v : Json),
        serde_json_from_str (rustTrim line) = some v →
        (v.get "type").bind Json.asStr = none →
        parse_codex_output now line =
          some { event_type := "message", payload := v,
                 timestamp := now }) :=
  ⟨parse_claude_none_iff, parse_codex_none_iff, parse_claude_wraps,
   parse_codex_wraps, parse_claude_fallback, parse_codex_fallback⟩

/-- Witness for C2 at concrete inputs: a non-JSON line degrades to the
wrapper event, a JSON object without `"type"` gets the fallback type, and
a blank line parses to nothing. -/
theorem claim_C2_parse_never_fails_witness :
    parse_claude_output 0 "hello" =
      some { event_type := "output",
             payload := Json.obj [("text", Json.str "hello")],
             timestamp := 0 } ∧
    parse_codex_output 0 " \x7b\"a\":1\x7d " =
      some { event_type := "message",
             payload := Json.obj [("a", Json.num 1)], timestamp := 0 } ∧
    parse_codex_output 0 "   " = none := by
  refine ⟨?_, ?_, ?_⟩
  · have h := claim_C2_parse_never_fails.2.2.1 0 "hello"
      (by decide) (by rfl)
    simpa using h
  · have h := claim_C2_parse_never_fails.2.2.2.2.2 0 " \x7b\"a\":1\x7d "
      (Json.obj [("a", Json.num 1)]) (by rfl) (by rfl)
    simpa using h
  · exact (claim_C2_parse_never_fails.2.1 0 "   ").mpr (by decide)

/-- C3.  `normalize_codex_event` is total and deterministic over native
event-type strings: its unified type agrees everywhere with lookup in the
closed table (`plan`/`thinking` ↦ `thinking`; `tool_call`/`exec`/
`function_call` ↦ `tool_call`; `tool_result`/`function_result` ↦
`tool_result`; `patch`/`apply`/`file_edit` ↦ `file_change`; `error` ↦
`error`) with every unmapped type resolving to `output`. -/
theorem claim_C3_normalize_total (e : CodexEvent) :
    (normalize_codex_event e).event_type =
      (specCodexTable.lookup e.event_type).getD "output" :=
  codex_unified_type_eq_table e.event_type

/-- C8.  The question detector returns true exactly when the trimmed text
ends with `?` or its lowercasing contains one of the fixed prompt
phrases; in particular it accepts "Should I also update the changelog?"
and rejects "I have finished the refactor.". -/
theorem claim_C8_question_detector :
    (∀ t : String, detect_question_in_result t =
      (endsWithChar (rustTrim t) '?' ||
        questionPhrases.any
          (fun p => strContainsSub (rustToLowercase (rustTrim t)) p))) ∧
    detect_question_in_result "Should I also update the changelog?" =
      true ∧
    detect_question_in_result "I have finished the refactor." = false := by
  refine ⟨?_, by decide, by decide⟩
  intro t
  by_cases h : rustTrim t = ""
  · have hd : detect_question_in_result t = false := by
      simp [detect_question_in_result, h]
    rw [hd, h]
    decide
  · simp [detect_question_in_result, h]

set_option maxRecDepth 4000 in
/-- C9 (code bug).  The bounded truncation is not total: its byte-indexed
slice `&text[..497]` panics when byte 497 is not a character boundary.
The text of two hundred euro signs has 200 characters (within the claimed
500-character bound) but 600 UTF-8 bytes, so the truncation branch runs
and the slice lands mid-character: the model returns `none`, the panic
value. -/
theorem claim_C9_truncation_panics :
    (String.mk (List.replicate 200 '€')).data.length = 200 ∧
    rustStrLen (String.mk (List.replicate 200 '€')) = 600 ∧
    truncate_result_text (String.mk (List.replicate 200 '€')) = none := by
  refine ⟨by decide, by decide, by rfl⟩

/-- C10.  Normalization changes only the event type: payload and
timestamp are passed through unchanged and the runtime tag is always
`"codex"`. -/
theorem claim_C10_normalize_frame (e : CodexEvent) :
    (normalize_codex_event e).payload = e.payload ∧
    (normalize_codex_event e).timestamp = e.timestamp ∧
    (normalize_codex_event e).runtime = "codex" :=
  ⟨rfl, rfl, rfl⟩

/-- C5.  For every stop request (single or team), whatever the registry
holds, the cancellation signal is always emitted — even when no process
was killed — and when the stored status is not terminal it is set to
`cancelled`. -/
theorem claim_C5_stop_always_emits :
    (∀ (pm : ProcessManager) (db : SessionsDb) (sid : String),
        (stop_task pm db sid).signals = [Signal.sessionCancelled sid]) ∧
    (∀ (pm : ProcessManager) (db : SessionsDb) (sid : String),
        (stop_team_task pm db sid).signals =
          [Signal.sessionCancelled sid]) ∧
    (∀ (pm : ProcessManager) (db : SessionsDb) (sid : String)
        (s : Session), get_session db sid = some s →
        is_terminal_status s.status = false →
        (get_session (stop_task pm db sid).db sid).map Session.status =
          some "cancelled") ∧
    (∀ (pm : ProcessManager) (db : SessionsDb) (sid : String)
        (s : Session), get_session db sid = some s →
        is_terminal_status s.status = false →
        (get_session (stop_team_task pm db sid).db sid).map
            Session.status =
          some "cancelled") := by
  refine ⟨fun pm db sid => rfl, fun pm db sid => rfl, ?_, ?_⟩
  · intro pm db sid s hs ht
    have hdb : (stop_task pm db sid).db =
        update_session_status db sid "cancelled"
          (some "Task stopped by user") := by
      simp [stop_task, hs, ht]
    rw [hdb]
    unfold update_session_status
    rw [lookup_dbUpdate, hs]
    rfl
  · intro pm db sid s hs ht
    have hdb : (stop_team_task pm db sid).db =
        update_session_status db sid "cancelled"
          (some "Team task stopped by user") := by
      simp [stop_team_task, hs, ht]
    rw [hdb]
    unfold update_session_status
    rw [lookup_dbUpdate, hs]
    rfl

/-- Witness for C5: stopping an `active` session with an empty registry
(no live process to kill) still emits the cancellation signal and marks
the session cancelled, on both the single and the team path. -/
theorem claim_C5_stop_always_emits_witness :
    (stop_task ProcessManager.new
        [("s", { status := "active", summary := none,
                 claude_session_id := none, tokens_used := 0,
                 cost_estimate := 0 })] "s").signals =
      [Signal.sessionCancelled "s"] ∧
    (get_session (stop_task ProcessManager.new
        [("s", { status := "active", summary := none,
                 claude_session_id := none, tokens_used := 0,
                 cost_estimate := 0 })] "s").db "s").map Session.status =
      some "cancelled" ∧
    (stop_team_task ProcessManager.new
        [("s", { status := "active", summary := none,
                 claude_session_id := none, tokens_used := 0,
                 cost_estimate := 0 })] "s").signals =
      [Signal.sessionCancelled "s"] ∧
    (get_session (stop_team_task ProcessManager.new
        [("s", { status := "active", summary := none,
                 claude_session_id := none, tokens_used := 0,
                 cost_estimate := 0 })] "s").db "s").map Session.status =
      some "cancelled" := by
  have h := claim_C5_stop_always_emits
  exact ⟨h.1 _ _ _, h.2.2.1 _ _ _ _ rfl rfl, h.2.1 _ _ _,
    h.2.2.2 _ _ _ _ rfl rfl⟩

/-- C6 (counterexample).  The registry does not enforce cross-map
exclusion: `register("s")` followed by `register_team("s")` leaves an
entry for `"s"` in both the single-process map and the team map
simultaneously. -/
theorem claim_C6_counterexample :
    containsKey "s"
        (runRegOps ProcessManager.new
          [RegOp.register "s" 0, RegOp.registerTeam "s" [1]]).processes =
      true ∧
    containsKey "s"
        (runRegOps ProcessManager.new
          [RegOp.register "s" 0, RegOp.registerTeam "s" [1]]).teams =
      true :=
  ⟨rfl, rfl⟩

/-- C6 (amended).  Disjointness of the two maps holds for the empty
registry and is preserved by every kill operation, and by a registration
only under the guard that the id is not currently in the other map; the
registrations themselves do not enforce it. -/
theorem claim_C6_guarded_disjointness :
    RegDisjoint ProcessManager.new ∧
    ∀ (pm : ProcessManager) (op : RegOp), RegDisjoint pm →
      regOpGuard pm op = true → RegDisjoint (applyRegOp pm op) := by
  constructor
  · intro sid
    exact Or.inl rfl
  · intro pm op hd hg
    cases op with
    | register sid c =>
      intro t
      have hteam : containsKey sid pm.teams = false := by
        simpa [regOpGuard] using hg
      by_cases ht : t = sid
      · subst ht
        exact Or.inr hteam
      · rcases hd t with hp | htm
        · left
          show containsKey t (insertKey sid c pm.processes) = false
          rw [containsKey_insertKey]
          have hst : (sid == t) = false :=
            beq_eq_false_iff_ne.mpr (Ne.symm ht)
          rw [hst, hp]
          rfl
        · exact Or.inr htm
    | registerTeam sid cs =>
      intro t
      have hproc : containsKey sid pm.processes = false := by
        simpa [regOpGuard] using hg
      by_cases ht : t = sid
      · subst ht
        exact Or.inl hproc
      · rcases hd t with hp | htm
        · exact Or.inl hp
        · right
          show containsKey t (insertKey sid cs pm.teams) = false
          rw [containsKey_insertKey]
          have hst : (sid == t) = false :=
            beq_eq_false_iff_ne.mpr (Ne.symm ht)
          rw [hst, htm]
          rfl
    | kill sid =>
      intro t
      rcases hd t with hp | htm
      · left
        show containsKey t (eraseKey sid pm.processes) = false
        rw [containsKey_eraseKey]
        by_cases h : t = sid
        · rw [if_pos h]
        · rw [if_neg h]
          exact hp
      · exact Or.inr htm
    | killTeam sid =>
      intro t
      rcases hd t with hp | htm
      · exact Or.inl hp
      · right
        show containsKey t (eraseKey sid pm.teams) = false
        rw [containsKey_eraseKey]
        by_cases h : t = sid
        · rw [if_pos h]
        · rw [if_neg h]
          exact htm
    | killAll =>
      intro t
      exact Or.inl rfl

/-- Witness for the amended C6: a guarded registration into the empty
registry keeps the maps disjoint at the registered id. -/
theorem claim_C6_guarded_disjointness_witness :
    containsKey "s"
        (applyRegOp ProcessManager.new (RegOp.register "s" 0)).processes =
      false ∨
    containsKey "s"
        (applyRegOp ProcessManager.new (RegOp.register "s" 0)).teams =
      false :=
  (claim_C6_guarded_disjointness.2 ProcessManager.new
    (RegOp.register "s" 0) claim_C6_guarded_disjointness.1 rfl) "s"

/-- C7.  The scenario line `\x7b"type":"result","result":"Done, 3 tests
added."\x7d` on the Claude pump's stdout: the final completion signal
carries `needsInput := false` and `lastResult := "Done, 3 tests added."`,
and the session is marked completed with that summary. -/
theorem claim_C7_result_scenario :
    stream_claude_output "s" ProcessManager.new
        [("s", { status := "active", summary := none,
                 claude_session_id := none, tokens_used := 0,
                 cost_estimate := 0 })]
        [(1700000000,
          "\x7b\"type\":\"result\",\"result\":\"Done, 3 tests added.\"\x7d")] =
      some (ProcessManager.new,
        [("s", { status := "completed",
                 summary := some "Done, 3 tests added.",
                 claude_session_id := none, tokens_used := 0,
                 cost_estimate := 0 })],
        [{ session_id := "s", event_type := "result",
           payload := Json.obj [("type", Json.str "result"),
             ("result", Json.str "Done, 3 tests added.")] }],
        [Signal.elfEvent "s" "result"
           (Json.obj [("type", Json.str "result"),
             ("result", Json.str "Done, 3 tests added.")]) 1700000000
           none,
         Signal.sessionCompleted "s" (some false)
           (some (some "Done, 3 tests added."))]) :=
  rfl

/-- C1 (counterexample).  The Codex pump's end-of-stream handling ignores
a stored `cancelled` status: it overwrites the status to `completed` and
emits a completion signal anyway. -/
theorem claim_C1_counterexample :
    stream_codex_output "s"
        [("s", { status := "cancelled", summary := none,
                 claude_session_id := none, tokens_used := 0,
                 cost_estimate := 0 })] [] =
      ([("s", { status := "completed", summary := some "Task completed",
                claude_session_id := none, tokens_used := 0,
                cost_estimate := 0 })], [],
       [Signal.sessionCompleted "s" none none]) :=
  rfl

theorem noCompletion_append (l1 l2 : List Signal) :
    noCompletion (l1 ++ l2) = (noCompletion l1 && noCompletion l2) := by
  induction l1 with
  | nil => simp [noCompletion]
  | cons a rest ih => simp [noCompletion, ih, Bool.and_assoc]

/-- A fresh `active` session row (used by concrete witnesses). -/
def activeRow : Session :=
  { status := "active", summary := none, claude_session_id := none,
    tokens_used := 0, cost_estimate := 0 }

theorem claude_pump_line_signals_all (sid : String) (acc : ClaudePumpAcc)
    (x : Int × String)
    (h : noCompletion acc.signals = true) :
    noCompletion (claude_pump_line sid acc x).signals = true := by
  unfold claude_pump_line
  cases hp : parse_claude_output x.1 x.2 with
  | none => exact h
  | some event =>
    by_cases hsys : event.event_type = "system"
    · cases hc : (event.payload.get "session_id").bind Json.asStr with
      | none =>
        by_cases hr : event.event_type = "result" <;>
          by_cases hb : event.event_type = "assistant" <;>
            simp [hsys, hc, hr, hb, noCompletion_append, noCompletion,
              Signal.isCompletion, h]
      | some csid =>
        by_cases hr : event.event_type = "result" <;>
          by_cases hb : event.event_type = "assistant" <;>
            simp [hsys, hc, hr, hb, noCompletion_append, noCompletion,
              Signal.isCompletion, h]
    · by_cases hr : event.event_type = "result" <;>
        by_cases hb : event.event_type = "assistant" <;>
          simp [hsys, hr, hb, noCompletion_append, noCompletion,
            Signal.isCompletion, h]

theorem claude_pump_line_status (sid tid : String) (acc : ClaudePumpAcc)
    (x : Int × String) :
    (get_session (claude_pump_line sid acc x).db tid).map Session.status =
      (get_session acc.db tid).map Session.status := by
  unfold claude_pump_line
  cases hp : parse_claude_output x.1 x.2 with
  | none => rfl
  | some event =>
    by_cases hsys : event.event_type = "system"
    · cases hc : (event.payload.get "session_id").bind Json.asStr with
      | none =>
        by_cases hr : event.event_type = "result" <;>
          by_cases hb : event.event_type = "assistant" <;>
            simp [hsys, hc, hr, hb]
      | some csid =>
        by_cases hr : event.event_type = "result" <;>
          by_cases hb : event.event_type = "assistant" <;>
            simp [hsys, hc, hr, hb, status_update_claude_session_id]
    · by_cases hr : event.event_type = "result" <;>
        by_cases hb : event.event_type = "assistant" <;>
          simp [hsys, hr, hb]

theorem claude_fold_signals_all (sid : String)
    (input : List (Int × String)) :
    ∀ acc : ClaudePumpAcc,
      noCompletion acc.signals = true →
      noCompletion ((input.foldl (claude_pump_line sid) acc).signals) =
        true := by
  induction input with
  | nil => intro acc h; exact h
  | cons x rest ih =>
    intro acc h
    exact ih _ (claude_pump_line_signals_all sid acc x h)

theorem claude_fold_status (sid tid : String)
    (input : List (Int × String)) :
    ∀ acc : ClaudePumpAcc,
      (get_session ((input.foldl (claude_pump_line sid) acc).db) tid).map
          Session.status =
        (get_session acc.db tid).map Session.status := by
  induction input with
  | nil => intro acc; rfl
  | cons x rest ih =>
    intro acc
    rw [List.foldl_cons, ih, claude_pump_line_status]

/-- C1 (amended, Claude pump).  If the stored status is already
`cancelled` at end-of-stream and the session is not flagged interactive,
the Claude pump leaves the registry state untouched, leaves the status
`cancelled`, and emits no completion signal — so only stop's cancellation
emission fires for that terminal transition. -/
theorem claim_C1_claude_pump_respects_cancelled
    (pm : ProcessManager) (db : SessionsDb) (sid : String)
    (input : List (Int × String))
    (hint : pm.is_interactive sid = false)
    (hcan : (get_session db sid).map Session.status = some "cancelled") :
    ∃ (db' : SessionsDb) (events : List EventRow)
      (signals : List Signal),
      stream_claude_output sid pm db input =
        some (pm, db', events, signals) ∧
      (get_session db' sid).map Session.status = some "cancelled" ∧
      noCompletion signals = true := by
  set acc := input.foldl (claude_pump_line sid)
    { db := db, events := [], signals := [], last_result_payload := none,
      last_assistant_text := none } with hacc
  have hstat : (get_session acc.db sid).map Session.status =
      some "cancelled" := by
    rw [hacc, claude_fold_status]
    exact hcan
  have heof : stream_claude_eof sid pm acc.db acc.last_result_payload
      acc.last_assistant_text = some (pm, acc.db, []) := by
    unfold stream_claude_eof
    rw [hint]
    simp [hstat]
  refine ⟨acc.db, acc.events, acc.signals ++ [], ?_, hstat, ?_⟩
  · simp only [stream_claude_output]
    rw [← hacc, heof]
  · rw [List.append_nil, hacc]
    exact claude_fold_signals_all sid input _ rfl

/-- Witness for the amended C1: a cancelled session with one stray line
of output reaches end-of-stream without any completion emission and its
status stays `cancelled`. -/
theorem claim_C1_claude_pump_respects_cancelled_witness :
    ∃ (db' : SessionsDb) (events : List EventRow)
      (signals : List Signal),
      stream_claude_output "s" ProcessManager.new
          [("s", { status := "cancelled", summary := none,
                   claude_session_id := none, tokens_used := 0,
                   cost_estimate := 0 })] [(0, "hi")] =
        some (ProcessManager.new, db', events, signals) ∧
      (get_session db' "s").map Session.status = some "cancelled" ∧
      noCompletion signals = true :=
  claim_C1_claude_pump_respects_cancelled ProcessManager.new
    [("s", { status := "cancelled", summary := none,
             claude_session_id := none, tokens_used := 0,
             cost_estimate := 0 })] "s" [(0, "hi")] rfl rfl

/-- C4 (amended, Claude pump).  If the session is flagged interactive
when stdout reaches end-of-stream, the Claude pump emits no completion
signal, clears the flag (read once, then cleared), and does not touch any
session status. -/
theorem claim_C4_claude_pump_interactive_skip
    (pm : ProcessManager) (db : SessionsDb) (sid : String)
    (input : List (Int × String))
    (hint : pm.is_interactive sid = true) :
    ∃ (db' : SessionsDb) (events : List EventRow)
      (signals : List Signal),
      stream_claude_output sid pm db input =
        some (pm.clear_interactive sid, db', events, signals) ∧
      (pm.clear_interactive sid).is_interactive sid = false ∧
      (get_session db' sid).map Session.status =
        (get_session db sid).map Session.status ∧
      noCompletion signals = true := by
  set acc := input.foldl (claude_pump_line sid)
    { db := db, events := [], signals := [], last_result_payload := none,
      last_assistant_text := none } with hacc
  have heof : stream_claude_eof sid pm acc.db acc.last_result_payload
      acc.last_assistant_text =
      some (pm.clear_interactive sid, acc.db, []) := by
    unfold stream_claude_eof
    rw [hint]
    simp
  refine ⟨acc.db, acc.events, acc.signals ++ [],
    ?_, clear_interactive_cleared pm sid, ?_, ?_⟩
  · simp only [stream_claude_output]
    rw [← hacc, heof]
  · rw [hacc, claude_fold_status]
  · rw [List.append_nil, hacc]
    exact claude_fold_signals_all sid input _ rfl

/-- Witness for the amended C4: a session flagged by the interactive
transition reaches end-of-stream with no completion emission, its status
untouched, and the flag cleared. -/
theorem claim_C4_claude_pump_interactive_skip_witness :
    ∃ (db' : SessionsDb) (events : List EventRow)
      (signals : List Signal),
      stream_claude_output "s" (ProcessManager.new.mark_interactive "s")
          [("s", activeRow)] [(0, "hi")] =
        some ((ProcessManager.new.mark_interactive "s").clear_interactive
          "s", db', events, signals) ∧
      ((ProcessManager.new.mark_interactive "s").clear_interactive
        "s").is_interactive "s" = false ∧
      (get_session db' "s").map Session.status =
        (get_session [("s", activeRow)] "s").map Session.status ∧
      noCompletion signals = true :=
  claim_C4_claude_pump_interactive_skip
    (ProcessManager.new.mark_interactive "s")
    [("s", activeRow)] "s" [(0, "hi")] rfl

/-- C4 (counterexample).  After an interactive transition has flagged the
session, the Codex pump still emits its completion signal at
end-of-stream: it never consults (and so never clears) the interactive
flag — its output is independent of the registry state. -/
theorem claim_C4_counterexample :
    ((transition_to_interactive ProcessManager.new "s").1).is_interactive
        "s" = true ∧
    stream_codex_output "s"
        [("s", { status := "active", summary := none,
                 claude_session_id := none, tokens_used := 0,
                 cost_estimate := 0 })] [] =
      ([("s", { status := "completed", summary := some "Task completed",
                claude_session_id := none, tokens_used := 0,
                cost_estimate := 0 })], [],
       [Signal.sessionCompleted "s" none none]) :=
  ⟨rfl, rfl⟩

end Elves
